import Mathlib

/-!
Shallow embedding of the CSS selector builder of `src/05-objects-tasks.js`
(the `CssSelector` class and the `cssSelectorBuilder` facade).

Modelling choices:
* Every fragment method of the class mutates `this` only after both checks
  pass, and throws before any mutation otherwise.  We embed each method as a
  function `CssSelector → String → CssSelector × Option SelErr`: the first
  component is the state of the object when the call returns or when the
  exception escapes (unchanged on a throw, since the source throws before
  any assignment), the second component is the exception, if any.
* The two `Error` values of the source are distinguished only by their
  message strings; `SelErr` is a two-constructor inductive and
  `SelErr.message` recovers the exact message text of the source.
* `this.repeats` is a plain object on which only the fields `element`, `id`
  and `pseudoElement` are ever set (to `true`); a missing field reads as
  falsy.  We embed it as a record of three `Bool`s, all `false` initially.
* `this.order` stores the kind keys (strings in the source) pushed in call
  order; we embed the six keys as the inductive `Kind`.
-/

namespace CoreJs

/-- The six fragment kinds, i.e. the keys of the source's `orderValue`
table (`element`, `id`, `class`, `attr`, `pseudoClass`, `pseudoElement`). -/
inductive Kind where
  | element
  | id
  | «class»
  | attr
  | pseudoClass
  | pseudoElement
deriving DecidableEq, Repr, Fintype

/-- The `orderValue` rank table from the `CssSelector` constructor. -/
def orderValue : Kind → Nat
  | .element => 0
  | .id => 1
  | .«class» => 2
  | .attr => 3
  | .pseudoClass => 4
  | .pseudoElement => 5

/-- The `this.repeats` object: only these three fields are ever written by
the source; a field that was never written reads as falsy. -/
structure Repeats where
  element : Bool
  id : Bool
  pseudoElement : Bool
deriving DecidableEq, Repr

/-- The state of a `CssSelector` instance: `this.selector`, `this.repeats`
and `this.order` (the constant `this.orderValue` table is `orderValue`). -/
structure CssSelector where
  selector : String
  repeats : Repeats
  order : List Kind
deriving DecidableEq, Repr

/-- `new CssSelector()`: empty selector text, empty repeats object, empty
order array. -/
def newCssSelector : CssSelector := ⟨"", ⟨false, false, false⟩, []⟩

/-- The two exceptions the builder can throw, distinguished in the source
only by their message text (see `SelErr.message`). -/
inductive SelErr where
  | duplicateFragment
  | orderViolation
deriving DecidableEq, Repr

/-- The exact message strings of the two `throw new Error(...)` sites. -/
def SelErr.message : SelErr → String
  | .duplicateFragment =>
      "Element, id and pseudo-element should not occur more then one time inside the selector"
  | .orderViolation =>
      "Selector parts should be arranged in the following order: element, id, class, attribute, pseudo-class, pseudo-element"

/-- `checkOrder(value)`: starts with `isInOrder = true`, and for each `el`
of `this.order` sets it to `false` when `orderValue[value] < orderValue[el]`. -/
def CssSelector.checkOrder (s : CssSelector) (value : Kind) : Bool :=
  s.order.foldl
    (fun isInOrder el => if orderValue value < orderValue el then false else isInOrder)
    true

/-- `element(element)`: duplicate check on `repeats.element`, then order
check, then append the bare value, set the repeat flag and push the kind. -/
def CssSelector.element (s : CssSelector) (element : String) :
    CssSelector × Option SelErr :=
  if s.repeats.element then (s, some .duplicateFragment)
  else if !(s.checkOrder .element) then (s, some .orderViolation)
  else (⟨s.selector ++ element,
         ⟨true, s.repeats.id, s.repeats.pseudoElement⟩,
         s.order ++ [.element]⟩, none)

/-- `id(id)`: duplicate check on `repeats.id`, then order check, then
append `#` + value, set the repeat flag and push the kind. -/
def CssSelector.id (s : CssSelector) (id : String) :
    CssSelector × Option SelErr :=
  if s.repeats.id then (s, some .duplicateFragment)
  else if !(s.checkOrder .id) then (s, some .orderViolation)
  else (⟨s.selector ++ ("#" ++ id),
         ⟨s.repeats.element, true, s.repeats.pseudoElement⟩,
         s.order ++ [.id]⟩, none)

/-- `class(className)`: order check only (no duplicate check), append
`.` + value and push the kind; `repeats` is untouched. -/
def CssSelector.«class» (s : CssSelector) (className : String) :
    CssSelector × Option SelErr :=
  if !(s.checkOrder .«class») then (s, some .orderViolation)
  else (⟨s.selector ++ ("." ++ className), s.repeats, s.order ++ [.«class»]⟩, none)

/-- `attr(value)`: order check only, append `[` + value + `]` and push the
kind; `repeats` is untouched. -/
def CssSelector.attr (s : CssSelector) (value : String) :
    CssSelector × Option SelErr :=
  if !(s.checkOrder .attr) then (s, some .orderViolation)
  else (⟨s.selector ++ ("[" ++ value ++ "]"), s.repeats, s.order ++ [.attr]⟩, none)

/-- `pseudoClass(value)`: order check only, append `:` + value and push the
kind; `repeats` is untouched. -/
def CssSelector.pseudoClass (s : CssSelector) (value : String) :
    CssSelector × Option SelErr :=
  if !(s.checkOrder .pseudoClass) then (s, some .orderViolation)
  else (⟨s.selector ++ (":" ++ value), s.repeats, s.order ++ [.pseudoClass]⟩, none)

/-- `pseudoElement(value)`: duplicate check on `repeats.pseudoElement`,
then order check, then append `::` + value, set the flag, push the kind. -/
def CssSelector.pseudoElement (s : CssSelector) (value : String) :
    CssSelector × Option SelErr :=
  if s.repeats.pseudoElement then (s, some .duplicateFragment)
  else if !(s.checkOrder .pseudoElement) then (s, some .orderViolation)
  else (⟨s.selector ++ ("::" ++ value),
         ⟨s.repeats.element, s.repeats.id, true⟩,
         s.order ++ [.pseudoElement]⟩, none)

/-- `combine(selector1, combinator, selector2)`: overwrites `this.selector`
with the two operands' `selector` fields joined around the combinator with
single spaces; `repeats` and `order` of `this` are untouched. -/
def CssSelector.combine (s : CssSelector) (selector1 : CssSelector)
    (combinator : String) (selector2 : CssSelector) : CssSelector :=
  ⟨selector1.selector ++ " " ++ combinator ++ " " ++ selector2.selector,
   s.repeats, s.order⟩

/-- `stringify()`: returns `this.selector`. -/
def CssSelector.stringify (s : CssSelector) : String := s.selector

/-- The facade `cssSelectorBuilder.element`: a fresh node seeded with the
fragment. -/
def cssSelectorBuilder.element (value : String) : CssSelector × Option SelErr :=
  newCssSelector.element value

/-- The facade `cssSelectorBuilder.id`. -/
def cssSelectorBuilder.id (value : String) : CssSelector × Option SelErr :=
  newCssSelector.id value

/-- The facade `cssSelectorBuilder.class`. -/
def cssSelectorBuilder.«class» (value : String) : CssSelector × Option SelErr :=
  newCssSelector.«class» value

/-- The facade `cssSelectorBuilder.attr`. -/
def cssSelectorBuilder.attr (value : String) : CssSelector × Option SelErr :=
  newCssSelector.attr value

/-- The facade `cssSelectorBuilder.pseudoClass`. -/
def cssSelectorBuilder.pseudoClass (value : String) : CssSelector × Option SelErr :=
  newCssSelector.pseudoClass value

/-- The facade `cssSelectorBuilder.pseudoElement`. -/
def cssSelectorBuilder.pseudoElement (value : String) : CssSelector × Option SelErr :=
  newCssSelector.pseudoElement value

/-- The facade `cssSelectorBuilder.combine`: `new CssSelector()` followed by
`combine(selector1, combinator, selector2)` on the fresh node. -/
def cssSelectorBuilder.combine (selector1 : CssSelector) (combinator : String)
    (selector2 : CssSelector) : CssSelector :=
  newCssSelector.combine selector1 combinator selector2

/-! ### Derived notions used to state the claims -/

/-- Dispatch a fragment call by kind: `apply s k v` is the method of kind
`k` called on `s` with argument `v`. -/
def CssSelector.apply (s : CssSelector) : Kind → String → CssSelector × Option SelErr
  | .element, v => s.element v
  | .id, v => s.id v
  | .«class», v => s.«class» v
  | .attr, v => s.attr v
  | .pseudoClass, v => s.pseudoClass v
  | .pseudoElement, v => s.pseudoElement v

/-- The kind-specific text template of each fragment method: bare value,
`#id`, `.class`, `[attr]`, `:pseudoClass`, `::pseudoElement`. -/
def template : Kind → String → String
  | .element, v => v
  | .id, v => "#" ++ v
  | .«class», v => "." ++ v
  | .attr, v => "[" ++ v ++ "]"
  | .pseudoClass, v => ":" ++ v
  | .pseudoElement, v => "::" ++ v

/-- The singleton kinds: those whose method performs the duplicate check. -/
def isSingleton : Kind → Bool
  | .element => true
  | .id => true
  | .pseudoElement => true
  | _ => false

/-- Read the repeat flag that the method of kind `k` consults (always
`false` for the repeatable kinds, which have no flag). -/
def Repeats.flag (r : Repeats) : Kind → Bool
  | .element => r.element
  | .id => r.id
  | .pseudoElement => r.pseudoElement
  | _ => false

/-- The update each method performs on `this.repeats` when it accepts:
sets the kind's flag for a singleton kind, leaves `repeats` unchanged for a
repeatable kind. -/
def Repeats.update (r : Repeats) : Kind → Repeats
  | .element => ⟨true, r.id, r.pseudoElement⟩
  | .id => ⟨r.element, true, r.pseudoElement⟩
  | .pseudoElement => ⟨r.element, r.id, true⟩
  | _ => r

/-- The spec's `seenKinds` abstraction over the node state: the set of
kinds already appended to the node, read off from `this.order`. -/
def CssSelector.seen (s : CssSelector) (k : Kind) : Bool :=
  decide (k ∈ s.order)

/-- Run a list of fragment calls in order on a node, stopping at the first
exception (the uncaught-exception behaviour of a fluent chain); returns the
node state reached and the exception, if any. -/
def runCalls (s : CssSelector) : List (Kind × String) → CssSelector × Option SelErr
  | [] => (s, none)
  | (k, v) :: rest =>
    match (s.apply k v).2 with
    | none => runCalls (s.apply k v).1 rest
    | some e => ((s.apply k v).1, some e)

/-- Run a list of fragment calls in order on a node, catching and
discarding every exception and continuing with the node's state (unchanged
by a failed call). -/
def runCallsCatch (s : CssSelector) : List (Kind × String) → CssSelector
  | [] => s
  | (k, v) :: rest => runCallsCatch (s.apply k v).1 rest

/-- The concatenation, in call order with no separators, of each call's
kind-specific template applied to its value. -/
def renderCalls : List (Kind × String) → String
  | [] => ""
  | (k, v) :: rest => template k v ++ renderCalls rest

/-- The `repeats` object determined by a list of appended kinds: each
singleton flag is set exactly when that kind occurs in the list. -/
def mkRepeats (ks : List Kind) : Repeats :=
  ⟨decide (Kind.element ∈ ks), decide (Kind.id ∈ ks),
   decide (Kind.pseudoElement ∈ ks)⟩

/-- The node invariant: `repeats` agrees with the kinds recorded in
`order`, the appended kinds are non-decreasing by rank, and each singleton
kind was appended at most once. -/
def Inv (s : CssSelector) : Prop :=
  s.repeats = mkRepeats s.order ∧
  s.order.Pairwise (fun a b => orderValue a ≤ orderValue b) ∧
  ∀ k, isSingleton k = true → s.order.count k ≤ 1

/-! ### A small heap model for aliasing claims

JavaScript objects live on a heap and methods mutate `this` in place.  To
state capture-by-value claims about `combine` we model a heap as a list of
`CssSelector` objects addressed by index. -/

/-- Call the fragment method of kind `k` on the object at index `i`,
storing back the object's post-call state (a method mutates only `this`).
An out-of-range index leaves the heap unchanged. -/
def applyAt (h : List CssSelector) (i : Nat) (k : Kind) (v : String) :
    List CssSelector × Option SelErr :=
  match h[i]? with
  | some s => (h.set i (s.apply k v).1, (s.apply k v).2)
  | none => (h, none)

/-- `cssSelectorBuilder.combine` on the objects at indices `i` and `j`:
allocates the fresh combined node at the end of the heap and returns its
index. -/
def combineAt (h : List CssSelector) (i j : Nat) (combinator : String) :
    List CssSelector × Nat :=
  match h[i]?, h[j]? with
  | some a, some b => (h ++ [cssSelectorBuilder.combine a combinator b], h.length)
  | _, _ => (h, h.length)

/-- Run a list of fragment calls against heap objects, each call naming the
index it mutates; exceptions are caught and discarded (a failed call leaves
the object unchanged). -/
def runMutsAt (h : List CssSelector) : List (Nat × Kind × String) → List CssSelector
  | [] => h
  | (i, k, v) :: rest => runMutsAt (applyAt h i k v).1 rest

example : (runCalls newCssSelector
    [(.id, "main"), (.«class», "container"), (.«class», "editable")]).1.stringify
    = "#main.container.editable" := by decide

example : (runCalls newCssSelector
    [(.element, "a"), (.attr, "href"), (.pseudoClass, "focus")]).1.stringify
    = "a[href]:focus" := by decide

example : (runCalls newCssSelector [(.id, "x"), (.element, "a")]).2
    = some .orderViolation := by decide

example : (runCalls newCssSelector [(.id, "a"), (.id, "b")]).2
    = some .duplicateFragment := by decide

example :
    (cssSelectorBuilder.combine (runCalls newCssSelector [(.element, "div"), (.id, "main")]).1
      "+" (runCalls newCssSelector [(.element, "span")]).1).stringify
    = "div#main + span" := by decide

example : (runCalls newCssSelector
    [(.id, "a"), (.pseudoElement, "x"), (.id, "b")]).2
    = some .duplicateFragment := by decide

/-! ### Helper lemmas -/

theorem checkOrder_foldl (k : Kind) (l : List Kind) (b : Bool) :
    l.foldl
      (fun isInOrder el => if orderValue k < orderValue el then false else isInOrder) b
      = (b && l.all fun el => !decide (orderValue k < orderValue el)) := by
  induction l generalizing b with
  | nil => simp
  | cons a t ih =>
    rw [List.foldl_cons, ih, List.all_cons]
    by_cases h : orderValue k < orderValue a
    · simp [h]
    · simp [h]

theorem checkOrder_eq_true_iff (s : CssSelector) (k : Kind) :
    s.checkOrder k = true ↔ ∀ el ∈ s.order, orderValue el ≤ orderValue k := by
  show (s.order.foldl
      (fun isInOrder el => if orderValue k < orderValue el then false else isInOrder)
      true) = true ↔ _
  rw [checkOrder_foldl]
  simp [Nat.not_lt]

/-- Every fragment method is an instance of one uniform shape: duplicate
check on the kind's repeat flag, order check, then the mutation. -/
theorem apply_eq (s : CssSelector) (k : Kind) (v : String) :
    s.apply k v =
      if s.repeats.flag k then (s, some SelErr.duplicateFragment)
      else if !(s.checkOrder k) then (s, some SelErr.orderViolation)
      else (⟨s.selector ++ template k v, s.repeats.update k, s.order ++ [k]⟩, none) := by
  cases k <;> rfl

theorem flag_of_not_singleton (r : Repeats) (k : Kind) (h : isSingleton k = false) :
    r.flag k = false := by
  cases k <;> simp_all [isSingleton, Repeats.flag]

theorem mkRepeats_flag (ks : List Kind) (k : Kind) (h : isSingleton k = true) :
    (mkRepeats ks).flag k = decide (k ∈ ks) := by
  cases k <;> simp_all [isSingleton, mkRepeats, Repeats.flag]

theorem update_mkRepeats (ks : List Kind) (k : Kind) :
    (mkRepeats ks).update k = mkRepeats (ks ++ [k]) := by
  cases k <;> simp [mkRepeats, Repeats.update, List.mem_append]

/-- A successful fragment call pins down both the checks that passed and
the whole post-state. -/
theorem apply_ok_state (s s1 : CssSelector) (k : Kind) (v : String)
    (h : s.apply k v = (s1, none)) :
    s1 = ⟨s.selector ++ template k v, s.repeats.update k, s.order ++ [k]⟩ ∧
    s.repeats.flag k = false ∧ s.checkOrder k = true := by
  rw [apply_eq] at h
  cases hf : s.repeats.flag k <;> rw [hf] at h
  · cases ho : s.checkOrder k <;> rw [ho] at h <;> simp at h
    exact ⟨h.symm, rfl, rfl⟩
  · simp at h

/-- A failing fragment call returns the object in its pre-call state. -/
theorem apply_err_state (s s1 : CssSelector) (k : Kind) (v : String) (e : SelErr)
    (h : s.apply k v = (s1, some e)) : s1 = s := by
  rw [apply_eq] at h
  cases hf : s.repeats.flag k <;> rw [hf] at h
  · cases ho : s.checkOrder k <;> rw [ho] at h <;> simp at h
    exact h.1.symm
  · simp at h
    exact h.1.symm

theorem apply_inv (s : CssSelector) (k : Kind) (v : String) (h : Inv s) :
    Inv (s.apply k v).1 := by
  rcases happ : s.apply k v with ⟨s1, r⟩
  cases r with
  | some e => rw [apply_err_state s s1 k v e happ]; exact h
  | none =>
    obtain ⟨hs1, hflag, hord⟩ := apply_ok_state s s1 k v happ
    obtain ⟨hc, hp, hcnt⟩ := h
    subst hs1
    refine ⟨?_, ?_, ?_⟩
    · show s.repeats.update k = mkRepeats (s.order ++ [k])
      rw [hc, update_mkRepeats]
    · show (s.order ++ [k]).Pairwise fun a b => orderValue a ≤ orderValue b
      rw [List.pairwise_append]
      refine ⟨hp, List.pairwise_singleton _ _, ?_⟩
      intro a ha b hb
      rw [List.mem_singleton] at hb
      rw [hb]
      exact (checkOrder_eq_true_iff s k).1 hord a ha
    · intro j hj
      show (s.order ++ [k]).count j ≤ 1
      rw [List.count_append]
      by_cases hjk : j = k
      · subst hjk
        have hz : s.order.count j = 0 := by
          rw [List.count_eq_zero]
          intro hmem
          have hfl := mkRepeats_flag s.order j hj
          rw [← hc, hflag] at hfl
          simp [hmem] at hfl
        simp [hz]
      · have hz : ([k].count j) = 0 := by
          rw [List.count_eq_zero]
          simp [hjk]
        rw [hz]
        simpa using hcnt j hj

theorem runCallsCatch_inv (cs : List (Kind × String)) (s : CssSelector) (h : Inv s) :
    Inv (runCallsCatch s cs) := by
  induction cs generalizing s with
  | nil => exact h
  | cons c rest ih =>
    obtain ⟨k, v⟩ := c
    show Inv (runCallsCatch (s.apply k v).1 rest)
    exact ih _ (apply_inv s k v h)

theorem Inv_newCssSelector : Inv newCssSelector := by
  refine ⟨rfl, List.Pairwise.nil, ?_⟩
  intro k _
  simp [newCssSelector]

/-- Characterization of a fully successful run: starting from a node whose
`repeats` record matches its `order` list, a run with no exception appends
every call's template to the text and every call's kind to the order. -/
theorem runCalls_ok_of_valid (cs : List (Kind × String)) (t : String) (ks : List Kind)
    (hord : (ks ++ cs.map Prod.fst).Pairwise fun a b => orderValue a ≤ orderValue b)
    (hsing : ∀ k, isSingleton k = true → (ks ++ cs.map Prod.fst).count k ≤ 1) :
    runCalls ⟨t, mkRepeats ks, ks⟩ cs
      = (⟨t ++ renderCalls cs, mkRepeats (ks ++ cs.map Prod.fst),
          ks ++ cs.map Prod.fst⟩, none) := by
  induction cs generalizing t ks with
  | nil => simp [runCalls, renderCalls, String.append_empty]
  | cons c rest ih =>
    obtain ⟨k, v⟩ := c
    have hflag : (mkRepeats ks).flag k = false := by
      by_cases hk : isSingleton k = true
      · rw [mkRepeats_flag ks k hk]
        simp only [decide_eq_false_iff_not]
        intro hmem
        have hcnt := hsing k hk
        rw [List.count_append] at hcnt
        have h1 : 0 < ks.count k := List.count_pos_iff.2 hmem
        have h2 : 0 < (((k, v) :: rest).map Prod.fst).count k := by
          simp [List.count_cons]
        omega
      · exact flag_of_not_singleton _ k (by simpa using hk)
    have hordk : (⟨t, mkRepeats ks, ks⟩ : CssSelector).checkOrder k = true := by
      rw [checkOrder_eq_true_iff]
      intro el hel
      rw [List.pairwise_append] at hord
      exact hord.2.2 el hel k (by simp)
    have happly : (⟨t, mkRepeats ks, ks⟩ : CssSelector).apply k v
        = (⟨t ++ template k v, mkRepeats (ks ++ [k]), ks ++ [k]⟩, none) := by
      rw [apply_eq, update_mkRepeats]
      simp [hflag, hordk]
    simp only [runCalls, happly]
    rw [ih (t ++ template k v) (ks ++ [k])
          (by rw [List.map_cons, List.append_cons] at hord; exact hord)
          (by
            intro j hj
            have hthis := hsing j hj
            rw [List.map_cons, List.append_cons] at hthis
            exact hthis)]
    simp [renderCalls, String.append_assoc, List.append_assoc]

/-- A fully successful run appends exactly the called kinds to `order` and
keeps `repeats` consistent with `order`. -/
theorem runCalls_ok_state (cs : List (Kind × String)) (s s' : CssSelector)
    (h : runCalls s cs = (s', none)) :
    s'.order = s.order ++ cs.map Prod.fst ∧
    (s.repeats = mkRepeats s.order → s'.repeats = mkRepeats s'.order) := by
  induction cs generalizing s with
  | nil =>
    simp only [runCalls, Prod.mk.injEq] at h
    rw [← h.1]
    simp
  | cons c rest ih =>
    obtain ⟨k, v⟩ := c
    simp only [runCalls] at h
    rcases happ : s.apply k v with ⟨s1, r⟩
    rw [happ] at h
    cases r with
    | some e => simp at h
    | none =>
      simp only at h
      obtain ⟨hs1, _, _⟩ := apply_ok_state s s1 k v happ
      obtain ⟨ho, hc⟩ := ih s1 h
      subst hs1
      constructor
      · rw [ho]
        simp [List.append_assoc]
      · intro hcons
        apply hc
        show s.repeats.update k = mkRepeats (s.order ++ [k])
        rw [hcons, update_mkRepeats]

theorem runCallsCatch_eq_of_ok (cs : List (Kind × String)) (s s' : CssSelector)
    (h : runCalls s cs = (s', none)) : runCallsCatch s cs = s' := by
  induction cs generalizing s with
  | nil =>
    simp only [runCalls, Prod.mk.injEq] at h
    simpa [runCallsCatch] using h.1
  | cons c rest ih =>
    obtain ⟨k, v⟩ := c
    simp only [runCalls] at h
    rcases happ : (s.apply k v).2 with _ | e
    · rw [happ] at h
      simp only at h
      show runCallsCatch (s.apply k v).1 rest = s'
      exact ih _ h
    · rw [happ] at h
      simp at h

/-! ### The claims -/

/-- C1: for every sequence of fragment calls on one builder node that
respects the singleton constraints and the non-decreasing rank order, no
call raises an error and `stringify()` returns exactly the concatenation,
in call order with no separators, of each fragment's kind-specific template
applied verbatim to its value argument. -/
theorem C1_valid_sequence_renders (cs : List (Kind × String))
    (hord : (cs.map Prod.fst).Pairwise fun a b => orderValue a ≤ orderValue b)
    (hsing : ∀ k, isSingleton k = true → (cs.map Prod.fst).count k ≤ 1) :
    (runCalls newCssSelector cs).2 = none ∧
    (runCalls newCssSelector cs).1.stringify = renderCalls cs := by
  have hnew : newCssSelector = (⟨"", mkRepeats [], []⟩ : CssSelector) := by
    simp [newCssSelector, mkRepeats]
  have h := runCalls_ok_of_valid cs "" [] (by simpa using hord) (by simpa using hsing)
  rw [hnew, h]
  exact ⟨rfl, String.empty_append _⟩

/-- Witness for C1 at a concrete in-order, singleton-respecting call list. -/
theorem C1_witness :
    (runCalls newCssSelector
      [(Kind.element, "a"), (Kind.id, "b"), (Kind.«class», "c"), (Kind.«class», "d")]).2
        = none ∧
    (runCalls newCssSelector
      [(Kind.element, "a"), (Kind.id, "b"), (Kind.«class», "c"), (Kind.«class», "d")]).1.stringify
        = renderCalls
            [(Kind.element, "a"), (Kind.id, "b"), (Kind.«class», "c"), (Kind.«class», "d")] :=
  C1_valid_sequence_renders
    [(Kind.element, "a"), (Kind.id, "b"), (Kind.«class», "c"), (Kind.«class», "d")]
    (by decide) (by decide)

/-- C2 fails as stated: after `id('a').pseudoElement('x')`, appending
`id('b')` has strictly smaller rank than the appended pseudo-element, yet
the raised error is the duplicate error, not the order error. -/
theorem C2_counterexample :
    (runCalls newCssSelector [(Kind.id, "a"), (Kind.pseudoElement, "x")]).2 = none ∧
    Kind.pseudoElement ∈
      (runCalls newCssSelector [(Kind.id, "a"), (Kind.pseudoElement, "x")]).1.order ∧
    orderValue Kind.id < orderValue Kind.pseudoElement ∧
    ((runCalls newCssSelector [(Kind.id, "a"), (Kind.pseudoElement, "x")]).1.apply
        Kind.id "b").2 = some SelErr.duplicateFragment ∧
    SelErr.duplicateFragment ≠ SelErr.orderViolation := by
  decide

/-- C2 (amended): provided the kind's singleton-duplicate check does not
fire (its repeat flag is unset, which is automatic for repeatable kinds),
appending a fragment whose rank is strictly less than the rank of some
already-appended fragment raises `OrderViolationError`; a fragment whose
rank equals or exceeds every previously appended rank passes the order
check; and appending the same repeatable kind twice in a row is accepted. -/
theorem C2_amended_order_check (s : CssSelector) (k : Kind) (v w : String) :
    (s.repeats.flag k = false → (∃ el ∈ s.order, orderValue k < orderValue el) →
      s.apply k v = (s, some SelErr.orderViolation)) ∧
    ((∀ el ∈ s.order, orderValue el ≤ orderValue k) → s.checkOrder k = true) ∧
    (isSingleton k = false → s.checkOrder k = true →
      (s.apply k v).2 = none ∧ ((s.apply k v).1.apply k w).2 = none) := by
  refine ⟨?_, ?_, ?_⟩
  · rintro hflag ⟨el, hel, hlt⟩
    have hco : s.checkOrder k = false := by
      cases hc : s.checkOrder k
      · rfl
      · exfalso
        have := (checkOrder_eq_true_iff s k).1 hc el hel
        omega
    rw [apply_eq, hflag, hco]
    simp
  · intro h
    exact (checkOrder_eq_true_iff s k).2 h
  · intro hsing hco
    have hflag : s.repeats.flag k = false := flag_of_not_singleton _ k hsing
    have h1 : s.apply k v
        = (⟨s.selector ++ template k v, s.repeats.update k, s.order ++ [k]⟩, none) := by
      rw [apply_eq, hflag, hco]
      simp
    rw [h1]
    refine ⟨rfl, ?_⟩
    have hflag1 : ((⟨s.selector ++ template k v, s.repeats.update k, s.order ++ [k]⟩ :
        CssSelector)).repeats.flag k = false := by
      show (s.repeats.update k).flag k = false
      cases k <;> simp_all [isSingleton, Repeats.update, Repeats.flag]
    have hco1 : ((⟨s.selector ++ template k v, s.repeats.update k, s.order ++ [k]⟩ :
        CssSelector)).checkOrder k = true := by
      rw [checkOrder_eq_true_iff]
      intro el hel
      rcases List.mem_append.1 hel with hmem | hmem
      · exact (checkOrder_eq_true_iff s k).1 hco el hmem
      · rw [List.mem_singleton] at hmem
        rw [hmem]
    rw [apply_eq, hflag1, hco1]
    simp

/-- Witness for C2's amended theorem: on a node holding a pseudo-class,
appending a class (rank 2 < 4, repeat flag unset) yields the order error. -/
theorem C2_witness :
    (⟨":p", ⟨false, false, false⟩, [Kind.pseudoClass]⟩ : CssSelector).apply Kind.«class» "c"
      = (⟨":p", ⟨false, false, false⟩, [Kind.pseudoClass]⟩, some SelErr.orderViolation) :=
  (C2_amended_order_check ⟨":p", ⟨false, false, false⟩, [Kind.pseudoClass]⟩
      Kind.«class» "c" "d").1 (by decide) ⟨Kind.pseudoClass, by decide, by decide⟩

/-- C3: a singleton-kind method called on a node to which that kind was
already successfully appended always raises the duplicate error, whatever
happened in between; the repeatable-kind methods never raise the duplicate
error, and an accepted repeatable fragment lands at the end of the rendered
text (preserving call order). -/
theorem C3_duplicate_behaviour (cs : List (Kind × String)) (s : CssSelector)
    (k : Kind) (v : String) (hrun : runCalls newCssSelector cs = (s, none)) :
    (isSingleton k = true → k ∈ cs.map Prod.fst →
      s.apply k v = (s, some SelErr.duplicateFragment)) ∧
    (isSingleton k = false → ∀ (s2 s3 : CssSelector) (w : String),
      s2.apply k w ≠ (s3, some SelErr.duplicateFragment)) ∧
    (isSingleton k = false → (s.apply k v).2 = none →
      (s.apply k v).1.selector = s.selector ++ template k v) := by
  obtain ⟨ho, hcons⟩ := runCalls_ok_state cs newCssSelector s hrun
  have hcons' : s.repeats = mkRepeats s.order := hcons (by decide)
  refine ⟨?_, ?_, ?_⟩
  · intro hk hmem
    have hmem' : k ∈ s.order := by
      rw [ho]
      simp [newCssSelector, hmem]
    have hflag : s.repeats.flag k = true := by
      rw [hcons', mkRepeats_flag s.order k hk]
      simp [hmem']
    rw [apply_eq, hflag]
    simp
  · intro hk s2 s3 w
    have hflag : s2.repeats.flag k = false := flag_of_not_singleton _ k hk
    rw [apply_eq, hflag]
    cases hc : s2.checkOrder k <;> simp
  · intro _ hok
    rcases happ : s.apply k v with ⟨s1, r⟩
    cases r with
    | some e =>
      rw [happ] at hok
      simp at hok
    | none =>
      obtain ⟨hs1, _, _⟩ := apply_ok_state s s1 k v happ
      rw [hs1]

/-- Witness for C3: after `id('a')`, a second `id` raises the duplicate
error. -/
theorem C3_witness :
    (⟨"#a", ⟨false, true, false⟩, [Kind.id]⟩ : CssSelector).apply Kind.id "b"
      = (⟨"#a", ⟨false, true, false⟩, [Kind.id]⟩, some SelErr.duplicateFragment) :=
  (C3_duplicate_behaviour [(Kind.id, "a")] ⟨"#a", ⟨false, true, false⟩, [Kind.id]⟩
      Kind.id "b" (by decide)).1 (by decide) (by decide)

/-- C4: `combine(left, combinator, right)` renders as
`stringify(left) + " " + combinator + " " + stringify(right)` for every
combinator string and every pair of operands (combinations included). -/
theorem C4_combine_renders (a b : CssSelector) (comb : String) :
    (cssSelectorBuilder.combine a comb b).stringify
      = a.stringify ++ " " ++ comb ++ " " ++ b.stringify := rfl

/-- C5: a fragment call that raises leaves the node's entire observable
state — rendered text, repeat flags, appended order — exactly as it was. -/
theorem C5_all_or_nothing (s s' : CssSelector) (k : Kind) (v : String) (e : SelErr)
    (h : s.apply k v = (s', some e)) :
    s' = s ∧ s'.stringify = s.stringify ∧ s'.repeats = s.repeats ∧
      s'.order = s.order := by
  have heq := apply_err_state s s' k v e h
  subst heq
  exact ⟨rfl, rfl, rfl, rfl⟩

/-- Witness for C5: the failing second `id` call leaves the node as it
was. -/
theorem C5_witness :
    (⟨"#a", ⟨false, true, false⟩, [Kind.id]⟩ : CssSelector)
        = ⟨"#a", ⟨false, true, false⟩, [Kind.id]⟩ ∧
    (⟨"#a", ⟨false, true, false⟩, [Kind.id]⟩ : CssSelector).stringify
        = (⟨"#a", ⟨false, true, false⟩, [Kind.id]⟩ : CssSelector).stringify ∧
    (⟨"#a", ⟨false, true, false⟩, [Kind.id]⟩ : CssSelector).repeats
        = (⟨"#a", ⟨false, true, false⟩, [Kind.id]⟩ : CssSelector).repeats ∧
    (⟨"#a", ⟨false, true, false⟩, [Kind.id]⟩ : CssSelector).order
        = (⟨"#a", ⟨false, true, false⟩, [Kind.id]⟩ : CssSelector).order :=
  C5_all_or_nothing ⟨"#a", ⟨false, true, false⟩, [Kind.id]⟩
    ⟨"#a", ⟨false, true, false⟩, [Kind.id]⟩ Kind.id "b" SelErr.duplicateFragment (by decide)

/-- C6: after any sequence of successful or failed (and caught) fragment
calls, the appended-rank sequence is non-decreasing and each singleton kind
occurs at most once in the appended order, while a repeatable kind can be
appended any number of times. -/
theorem C6_invariant (cs : List (Kind × String)) :
    ((runCallsCatch newCssSelector cs).order.map orderValue).Pairwise (· ≤ ·) ∧
    (∀ k, isSingleton k = true → (runCallsCatch newCssSelector cs).order.count k ≤ 1) ∧
    (∀ (n : Nat) (k : Kind) (v : String), isSingleton k = false →
      (runCallsCatch newCssSelector (List.replicate n (k, v))).order.count k = n) := by
  obtain ⟨hc, hp, hcnt⟩ := runCallsCatch_inv cs newCssSelector Inv_newCssSelector
  refine ⟨?_, hcnt, ?_⟩
  · rw [List.pairwise_map]
    exact hp
  · intro n k v hk
    have hrun := runCalls_ok_of_valid (List.replicate n (k, v)) "" []
        (by
          simp only [List.nil_append, List.map_replicate]
          exact List.pairwise_replicate.2 (Or.inr (le_refl _)))
        (by
          intro j hj
          simp only [List.nil_append, List.map_replicate]
          have hne : j ≠ k := by
            intro hcontr
            rw [hcontr] at hj
            rw [hj] at hk
            exact absurd hk (by simp)
          simp [List.count_replicate, Ne.symm hne])
    have hnew : newCssSelector = (⟨"", mkRepeats [], []⟩ : CssSelector) := by
      simp [newCssSelector, mkRepeats]
    rw [hnew, runCallsCatch_eq_of_ok _ _ _ hrun]
    simp [List.count_replicate]

/-- Witness for C6 at a concrete call list with a failing call inside. -/
theorem C6_witness :
    ((runCallsCatch newCssSelector
        [(Kind.id, "a"), (Kind.element, "e"), (Kind.«class», "c")]).order.map
        orderValue).Pairwise (· ≤ ·) ∧
    (runCallsCatch newCssSelector
        [(Kind.id, "a"), (Kind.element, "e"), (Kind.«class», "c")]).order.count Kind.id ≤ 1 ∧
    (runCallsCatch newCssSelector
        (List.replicate 3 (Kind.«class», "c"))).order.count Kind.«class» = 3 := by
  have h6 := C6_invariant [(Kind.id, "a"), (Kind.element, "e"), (Kind.«class», "c")]
  exact ⟨h6.1, h6.2.1 Kind.id (by decide), h6.2.2 3 Kind.«class» "c" (by decide)⟩

/-- C7: every accepted append pushes the kind (hence its rank) onto the
appended-order record, and the kind becomes a member of the node's
seen-kinds record, the addition being idempotent (set semantics). -/
theorem C7_accept_updates (s s' : CssSelector) (k : Kind) (v : String)
    (h : s.apply k v = (s', none)) :
    s'.order = s.order ++ [k] ∧
    s'.order.map orderValue = s.order.map orderValue ++ [orderValue k] ∧
    s'.repeats = s.repeats.update k ∧
    s'.seen k = true ∧
    (∀ j, s'.seen j = true ↔ (s.seen j = true ∨ j = k)) := by
  obtain ⟨hs1, _, _⟩ := apply_ok_state s s' k v h
  subst hs1
  refine ⟨rfl, by simp, rfl, ?_, ?_⟩
  · show decide (k ∈ s.order ++ [k]) = true
    simp
  · intro j
    show decide (j ∈ s.order ++ [k]) = true ↔ (decide (j ∈ s.order) = true ∨ j = k)
    simp [List.mem_append]

/-- Witness for C7: after `class('c')` succeeds on a fresh node, `class` is
in the node's seen-kinds record and was pushed onto the order. -/
theorem C7_witness :
    ((⟨".c", ⟨false, false, false⟩, [Kind.«class»]⟩ : CssSelector).seen Kind.«class» = true) ∧
    (⟨".c", ⟨false, false, false⟩, [Kind.«class»]⟩ : CssSelector).order
      = newCssSelector.order ++ [Kind.«class»] := by
  have h7 := C7_accept_updates newCssSelector ⟨".c", ⟨false, false, false⟩, [Kind.«class»]⟩
      Kind.«class» "c" (by decide)
  exact ⟨h7.2.2.2.1, h7.1⟩

/-- The object at an index untouched by any of the mutations is unchanged
by running them. -/
theorem runMutsAt_getElem_ne (muts : List (Nat × Kind × String)) (h : List CssSelector)
    (c : Nat) (hc : ∀ m ∈ muts, m.1 ≠ c) :
    (runMutsAt h muts)[c]? = h[c]? := by
  induction muts generalizing h with
  | nil => rfl
  | cons m rest ih =>
    obtain ⟨i, k, v⟩ := m
    show (runMutsAt (applyAt h i k v).1 rest)[c]? = h[c]?
    rw [ih _ (fun m hm => hc m (List.mem_cons_of_mem _ hm))]
    have hne : i ≠ c := hc (i, k, v) (List.mem_cons_self _ _)
    unfold applyAt
    cases hh : h[i]? with
    | none => rfl
    | some s => simp [List.getElem?_set_ne hne]

/-- C8: a combination snapshots its operands' rendered text at combine
time: after any further fragment calls mutating the operand objects, the
combination still renders the text computed when `combine` was called. -/
theorem C8_capture_by_value (h : List CssSelector) (i j : Nat) (comb : String)
    (muts : List (Nat × Kind × String))
    (hi : i < h.length) (hj : j < h.length)
    (hm : ∀ m ∈ muts, m.1 < h.length) :
    ((runMutsAt (combineAt h i j comb).1 muts)[(combineAt h i j comb).2]?).map
        CssSelector.stringify
      = some ((h.get ⟨i, hi⟩).stringify ++ " " ++ comb ++ " " ++
          (h.get ⟨j, hj⟩).stringify) := by
  have hig : h[i]? = some (h.get ⟨i, hi⟩) := by
    rw [List.getElem?_eq_getElem hi, List.get_eq_getElem]
  have hjg : h[j]? = some (h.get ⟨j, hj⟩) := by
    rw [List.getElem?_eq_getElem hj, List.get_eq_getElem]
  have hcomb : combineAt h i j comb
      = (h ++ [cssSelectorBuilder.combine (h.get ⟨i, hi⟩) comb (h.get ⟨j, hj⟩)],
         h.length) := by
    unfold combineAt
    rw [hig, hjg]
  rw [hcomb]
  rw [runMutsAt_getElem_ne muts _ h.length (fun m hmem => Nat.ne_of_lt (hm m hmem))]
  rw [List.getElem?_concat_length]
  rfl

/-- Witness for C8: combining `div` and `p`, then appending a class to the
first operand, leaves the combination rendering `div + p`. -/
theorem C8_witness :
    ((runMutsAt (combineAt [⟨"div", ⟨true, false, false⟩, [Kind.element]⟩,
        ⟨"p", ⟨true, false, false⟩, [Kind.element]⟩] 0 1 "+").1
        [(0, Kind.«class», "x")])[(combineAt
          [⟨"div", ⟨true, false, false⟩, [Kind.element]⟩,
           ⟨"p", ⟨true, false, false⟩, [Kind.element]⟩] 0 1 "+").2]?).map
        CssSelector.stringify
      = some "div + p" := by
  have h8 := C8_capture_by_value
      [⟨"div", ⟨true, false, false⟩, [Kind.element]⟩,
       ⟨"p", ⟨true, false, false⟩, [Kind.element]⟩]
      0 1 "+" [(0, Kind.«class», "x")] (by decide) (by decide) (by decide)
  rw [h8]
  decide

/-- C9: the handle returned by `cssSelectorBuilder.combine` has empty
duplicate and order tracking, so any fragment method called on it succeeds
and appends its template to the end of the combined text. -/
theorem C9_combination_accepts_fragments (a b : CssSelector) (comb : String)
    (k : Kind) (v : String) :
    (cssSelectorBuilder.combine a comb b).apply k v
      = (⟨(cssSelectorBuilder.combine a comb b).stringify ++ template k v,
          Repeats.update ⟨false, false, false⟩ k, [k]⟩, none) := by
  rw [apply_eq]
  have h1 : (cssSelectorBuilder.combine a comb b).repeats.flag k = false := by
    cases k <;> rfl
  have h2 : (cssSelectorBuilder.combine a comb b).checkOrder k = true := rfl
  rw [h1, h2]
  rfl

/-- C10: when a singleton call violates both the duplicate and the order
rule at once, the duplicate error is the one raised. -/
theorem C10_duplicate_precedence (s : CssSelector) (k : Kind) (v : String)
    (hdup : s.repeats.flag k = true) (hord : s.checkOrder k = false) :
    s.apply k v = (s, some SelErr.duplicateFragment) ∧
    (s.apply k v).2 ≠ some SelErr.orderViolation := by
  rw [apply_eq, hdup]
  simp

/-- Witness for C10: after `id('a').pseudoElement('x')`, the call `id('b')`
violates both rules and raises the duplicate error. -/
theorem C10_witness :
    (⟨"#a::x", ⟨false, true, true⟩, [Kind.id, Kind.pseudoElement]⟩ : CssSelector).apply
        Kind.id "b"
      = (⟨"#a::x", ⟨false, true, true⟩, [Kind.id, Kind.pseudoElement]⟩,
         some SelErr.duplicateFragment) :=
  (C10_duplicate_precedence ⟨"#a::x", ⟨false, true, true⟩, [Kind.id, Kind.pseudoElement]⟩
      Kind.id "b" (by decide) (by decide)).1

end CoreJs
